import Mathlib

/-!
Verification of the aws-toolbelt console (`src/aws_toolbelt/main.py`):
a cascading cluster → service → logs selection UI over the ECS and
CloudWatch Logs APIs, with region-scoped client rebinding.

The embedding below translates the handlers of `main.py` into pure Lean
functions.  Cloud API calls are modelled by passing their responses in
explicitly: an `Except String α` response where `.error e` stands for the
client call raising an exception with message `e` (the Python code's
behaviour on a raised exception — propagate or catch — is then translated
faithfully).  Python dictionary lookups on response payloads that the code
performs without guarding are modelled with mandatory structure fields when
the key is always present in the API response shape, and with `Option`
fields plus explicit `KeyError` results where a claim concerns the lookup
failing.  The single-threaded Textual event loop is modelled as a step
function on an `AppState`: each handler runs to completion atomically
(every boto3 call in the source is synchronous and awaited inline).
-/

namespace AwsToolbelt

/-- Python truthiness of an optional string (`None` and `""` are falsy):
the source guards `load_services` and `load_logs` with
`if self.selected_cluster:` and `if self.selected_cluster and self.selected_service:`. -/
def pyTruthy : Option String → Bool
  | none => false
  | some s => s ≠ ""

/-- Python's `str.split("/")` on a character list: splits at every `/`,
keeping empty segments, and yields `[[]]` on the empty string. -/
def splitSlash : List Char → List (List Char)
  | [] => [[]]
  | c :: rest =>
    if c = '/' then [] :: splitSlash rest
    else
      match splitSlash rest with
      | [] => [[c]]
      | h :: t => (c :: h) :: t

/-- `cs.split("/")[-1]` at the character-list level. -/
def lastSegmentL (cs : List Char) : List Char :=
  (splitSlash cs).getLastD []

/-- The identifier derivation the source applies to every listing result:
`arn.split("/")[-1]` (`load_clusters` line 90, `load_services` line 100). -/
def lastSegment (s : String) : String :=
  String.mk (lastSegmentL s.data)

/-- `log_config["logConfiguration"]` payload: `logDriver` is read
unconditionally, `options` is a dict the code indexes with
`["options"]["awslogs-group"]` without checking presence. -/
structure LogConfig where
  logDriver : String
  options : Option (List (String × String))
deriving DecidableEq

/-- One entry of `taskDefinition["containerDefinitions"]`; the code tests
`"logConfiguration" in container_def`. -/
structure ContainerDef where
  logConfiguration : Option LogConfig
deriving DecidableEq

/-- `describe_task_definition(...)["taskDefinition"]` payload. -/
structure TaskDef where
  containerDefinitions : List ContainerDef
deriving DecidableEq

/-- One entry of `describe_services(...)["services"]`. -/
structure ServiceDesc where
  taskDefinition : String
deriving DecidableEq

/-- The scan loop of `App.get_log_group_name` (lines 133–140): first
container definition that has a `logConfiguration` whose `logDriver`
is `"awslogs"` determines the result; on it the code evaluates
`log_config["options"]["awslogs-group"]`, raising a `KeyError` when the
`options` dict or the `awslogs-group` key is missing; if the loop finds
no such container the function returns `""`. -/
def findLogGroup : List ContainerDef → Except String String
  | [] => .ok ""
  | c :: rest =>
    match c.logConfiguration with
    | none => findLogGroup rest
    | some lc =>
      if lc.logDriver = "awslogs" then
        match lc.options with
        | none => .error "KeyError: options"
        | some kvs =>
          match kvs.lookup "awslogs-group" with
          | none => .error "KeyError: awslogs-group"
          | some g => .ok g
      else findLogGroup rest

/-- Does a container definition carry a `logConfiguration` with the
`awslogs` driver (the loop's selection condition)? -/
def matchesAwslogs (c : ContainerDef) : Bool :=
  match c.logConfiguration with
  | none => false
  | some lc => lc.logDriver = "awslogs"

/-- `App.get_log_group_name` (lines 122–140): `services` is the
`describe_services` response's `"services"` list, indexed with `[0]`
(raising `IndexError` when empty); `taskDefOf` maps the service's
`taskDefinition` id to the `describe_task_definition` response. -/
def get_log_group_name (services : List ServiceDesc) (taskDefOf : String → TaskDef) :
    Except String String :=
  match services with
  | [] => .error "IndexError: list index out of range"
  | svc :: _ => findLogGroup (taskDefOf svc.taskDefinition).containerDefinitions

/-- `App.load_clusters` (lines 85–90): `resp` is the outcome of
`ecs_client.list_clusters()["clusterArns"]`; `prev` is the current content
of the `#clusters` list view.  The call happens before `clear()`, so on an
exception the exception propagates (no `try`) and the view keeps `prev`;
on success the view is cleared and repopulated with the derived names.
Result: (content of the view afterwards, outcome of the handler). -/
def load_clusters (prev : List String) (resp : Except String (List String)) :
    List String × Except String Unit :=
  match resp with
  | .error e => (prev, .error e)
  | .ok arns => (arns.map lastSegment, .ok ())

/-- `App.load_services` (lines 92–100): guarded by
`if self.selected_cluster:`; `resp c` is the outcome of
`ecs_client.list_services(cluster=c)["serviceArns"]`.  As in
`load_clusters`, an exception propagates and leaves the view at `prev`. -/
def load_services (selectedCluster : Option String) (prev : List String)
    (resp : String → Except String (List String)) :
    List String × Except String Unit :=
  match selectedCluster with
  | none => (prev, .ok ())
  | some c =>
    if c = "" then (prev, .ok ())
    else
      match resp c with
      | .error e => (prev, .error e)
      | .ok arns => (arns.map lastSegment, .ok ())

/-- `App.load_logs` (lines 142–176), returning the resulting content of the
`#logs` widget (or a propagated exception).  `resolveRes` is the outcome of
`get_log_group_name` (evaluated outside the `try`, so its exceptions
propagate — with the widget already cleared); `streamsRes g` is
`describe_log_streams(logGroupName=g, orderBy="LastEventTime",
descending=True, limit=1)["logStreams"]` as a list of stream names;
`eventsRes g s` is `get_log_events(logGroupName=g, logStreamName=s,
limit=100)["events"]` as a list of messages.  Both client calls sit inside
`try`, whose handler writes a single `Error fetching logs: ...` line.
Result: (content of the `#logs` widget afterwards, outcome). -/
def load_logs (selectedCluster selectedService : Option String) (prev : List String)
    (resolveRes : Except String String)
    (streamsRes : String → Except String (List String))
    (eventsRes : String → String → Except String (List String)) :
    List String × Except String Unit :=
  if pyTruthy selectedCluster && pyTruthy selectedService then
    match resolveRes with
    | .error e => ([], .error e)
    | .ok g =>
      if g = "" then (["Could not find log group for this service."], .ok ())
      else
        match streamsRes g with
        | .error e => (["Error fetching logs: " ++ e], .ok ())
        | .ok [] => (["No log streams found for this service."], .ok ())
        | .ok (latest :: _) =>
          match eventsRes g latest with
          | .error e => (["Error fetching logs: " ++ e], .ok ())
          | .ok msgs => (msgs, .ok ())
  else (prev, .ok ())

/-- A CloudWatch log stream as the log API holds it: a name, the timestamp
of its last event, and its events in chronological order. -/
structure LogStream where
  name : String
  lastEventTime : Nat
  events : List String
deriving DecidableEq

/-- The stream a `describe_log_streams(orderBy="LastEventTime",
descending=True, limit=1)` call returns: one with the maximal last-event
time (the earliest such on ties), or none when the group has no streams.
Interface model of the log API collaborator. -/
def mostRecentStream : List LogStream → Option LogStream
  | [] => none
  | s :: rest =>
    match mostRecentStream rest with
    | none => some s
    | some t => if s.lastEventTime < t.lastEventTime then some t else some s

/-- The name list the `describe_log_streams(..., limit=1)` call yields for
a group holding `streams`. -/
def describeLogStreamsResp (streams : List LogStream) : List String :=
  match mostRecentStream streams with
  | none => []
  | some s => [s.name]

/-- `get_log_events(..., logStreamName=nm, limit=100)`: the last `limit`
events of the named stream, still in chronological order.  Interface model
of the log API collaborator. -/
def getLogEventsResp (streams : List LogStream) (nm : String) (limit : Nat) :
    List String :=
  match streams.find? (fun s => s.name == nm) with
  | none => []
  | some s => s.events.drop (s.events.length - limit)

/-- The one request `ecs_client.update_service(cluster=..., service=...,
forceNewDeployment=True)` issues. -/
structure RedeployCall where
  cluster : String
  service : String
  forceNewDeployment : Bool
deriving DecidableEq

/-- `RedeploytBtn.on_click` (lines 47–50): issues a single
`update_service` request built from the button's stored `cluster` and
`service`, with `forceNewDeployment=True`.  The result triple is (requests
issued, messages rendered by the handler, outcome): the handler renders
nothing and has no `try`, so the client's outcome is returned as-is. -/
def redeploy_on_click (btnCluster btnService : String)
    (updateService : RedeployCall → Except String Unit) :
    List RedeployCall × List String × Except String Unit :=
  let call : RedeployCall := ⟨btnCluster, btnService, true⟩
  ([call], [], updateService call)

/-- The cloud collaborator: deterministic responses per region (the first
argument of every field) for each API call the app makes. -/
structure Cloud where
  clustersResp : String → Except String (List String)
  servicesResp : String → String → Except String (List String)
  servicesDesc : String → String → String → List ServiceDesc
  taskDefs : String → String → TaskDef
  streamsResp : String → String → Except String (List String)
  eventsResp : String → String → String → Except String (List String)
  updateResp : String → RedeployCall → Except String Unit

/-- The mutable state of the running app: the regions the two global
clients are bound to (`ecs_client`, `logs_client`), the window title, the
contents of the two list views and the log widget, the two reactive
selection attributes, and the redeploy button's stored pair. -/
structure AppState where
  ecsRegion : String
  logsRegion : String
  title : String
  clustersList : List String
  servicesList : List String
  selectedCluster : Option String
  selectedService : Option String
  redBtnCluster : String
  redBtnService : String
  logLines : List String
deriving DecidableEq

/-- State at startup: both module-level clients are constructed with
`region_name="us-east-1"` (lines 25–26); the list views hold their
placeholder rows from `compose`; nothing is selected; the redeploy
button's pair is `("", "")`. -/
def initState : AppState :=
  { ecsRegion := "us-east-1"
    logsRegion := "us-east-1"
    title := "App"
    clustersList := ["Clusters"]
    servicesList := ["Services"]
    selectedCluster := none
    selectedService := none
    redBtnCluster := ""
    redBtnService := ""
    logLines := [] }

/-- The events the UI delivers to the handlers of `App` and
`RedeploytBtn`: mount, a `Select.Changed` with region value `r`, a
`ListView.Selected` whose item is an `ECSClusterItem` or `ECSServiceItem`
with the given stored name, and a click on the redeploy button. -/
inductive Ev where
  | mount
  | selectRegion (r : String)
  | selectClusterItem (name : String)
  | selectServiceItem (name : String)
  | clickRedeploy
deriving DecidableEq

/-- One handler execution.  The Textual loop runs handlers one at a time
and every client call in the source is synchronous, so each event is an
atomic step; `.error e` means the handler raised (Textual then tears the
app down — the session does not continue). -/
def step (cloud : Cloud) (s : AppState) : Ev → Except String AppState
  | .mount =>
    match load_clusters s.clustersList (cloud.clustersResp s.ecsRegion) with
    | (_, .error e) => .error e
    | (cl, .ok _) => .ok { s with clustersList := cl }
  | .selectRegion r =>
    let s1 := { s with title := r, ecsRegion := r, logsRegion := r }
    match load_clusters s1.clustersList (cloud.clustersResp s1.ecsRegion) with
    | (_, .error e) => .error e
    | (cl, .ok _) => .ok { s1 with clustersList := cl }
  | .selectClusterItem name =>
    let s1 := { s with selectedCluster := some name, redBtnCluster := name }
    match load_services s1.selectedCluster s1.servicesList
        (cloud.servicesResp s1.ecsRegion) with
    | (_, .error e) => .error e
    | (sv, .ok _) => .ok { s1 with servicesList := sv }
  | .selectServiceItem name =>
    let s1 := { s with selectedService := some name, redBtnService := name }
    let c := s1.selectedCluster.getD ""
    match load_logs s1.selectedCluster s1.selectedService s1.logLines
        (get_log_group_name (cloud.servicesDesc s1.ecsRegion c name)
          (cloud.taskDefs s1.ecsRegion))
        (cloud.streamsResp s1.logsRegion)
        (cloud.eventsResp s1.logsRegion) with
    | (_, .error e) => .error e
    | (lines, .ok _) => .ok { s1 with logLines := lines }
  | .clickRedeploy =>
    match cloud.updateResp s.ecsRegion ⟨s.redBtnCluster, s.redBtnService, true⟩ with
    | .error e => .error e
    | .ok _ => .ok s

/-- Run a sequence of events from startup. -/
def runEvents (cloud : Cloud) (evs : List Ev) : Except String AppState :=
  evs.foldlM (step cloud) initState

/-- States reachable from startup through completed handler executions. -/
inductive Reaches (cloud : Cloud) : AppState → Prop where
  | init : Reaches cloud initState
  | next {s s' : AppState} {e : Ev} :
      Reaches cloud s → step cloud s e = .ok s' → Reaches cloud s'

/-- A concrete all-succeeding cloud (the §8 happy-path scenario): one
cluster `p/prod` with one service `p/prod/web`, whose task definition's
single container uses the `awslogs` driver with group `/ecs/web`; that
group has one stream with three lines. -/
def cloudEx : Cloud :=
  { clustersResp := fun _ => .ok ["p/prod"]
    servicesResp := fun _ _ => .ok ["p/prod/web"]
    servicesDesc := fun _ _ _ => [⟨"td1"⟩]
    taskDefs := fun _ _ =>
      ⟨[⟨some ⟨"awslogs", some [("awslogs-group", "/ecs/web")]⟩⟩]⟩
    streamsResp := fun _ _ => .ok ["s1"]
    eventsResp := fun _ _ _ => .ok ["l1", "l2", "l3"]
    updateResp := fun _ _ => .ok () }

/-- `cloudEx` with a failing `update_service` call. -/
def cloudFail : Cloud :=
  { cloudEx with updateResp := fun _ _ => .error "AccessDenied" }

/-- State reached from startup under `cloudEx` after `on_mount`. -/
def stMount : AppState :=
  { initState with clustersList := ["prod"] }

/-- State reached after `on_mount` and selecting the cluster `prod`. -/
def stCluster : AppState :=
  { stMount with
    selectedCluster := some "prod"
    redBtnCluster := "prod"
    servicesList := ["web"] }

/-- State reached after additionally selecting the service `web`. -/
def stService : AppState :=
  { stCluster with
    selectedService := some "web"
    redBtnService := "web"
    logLines := ["l1", "l2", "l3"] }

/-- State reached from `stService` by a region switch to `eu-west-1`. -/
def stRegionSwitch : AppState :=
  { stService with
    title := "eu-west-1"
    ecsRegion := "eu-west-1"
    logsRegion := "eu-west-1"
    clustersList := ["prod"] }

/-- State reached from startup by a region switch to `ap-south-1`. -/
def stR1 : AppState :=
  { initState with
    title := "ap-south-1"
    ecsRegion := "ap-south-1"
    logsRegion := "ap-south-1"
    clustersList := ["prod"] }

/-- State reached from `stR1` by a second region switch to `eu-west-1`. -/
def stR2 : AppState :=
  { initState with
    title := "eu-west-1"
    ecsRegion := "eu-west-1"
    logsRegion := "eu-west-1"
    clustersList := ["prod"] }

/-! ### Helper lemmas -/

theorem splitSlash_ne_nil (cs : List Char) : splitSlash cs ≠ [] := by
  induction cs with
  | nil => simp [splitSlash]
  | cons c rest ih =>
    simp only [splitSlash]
    split
    · simp
    · cases h : splitSlash rest with
      | nil => simp
      | cons hd tl => simp

theorem splitSlash_no_slash (cs : List Char) (h : '/' ∉ cs) : splitSlash cs = [cs] := by
  induction cs with
  | nil => rfl
  | cons c rest ih =>
    simp only [List.mem_cons, not_or] at h
    simp only [splitSlash]
    rw [if_neg (fun hc => h.1 hc.symm), ih h.2]

theorem splitSlash_len2 (cs : List Char) (h : '/' ∈ cs) : 2 ≤ (splitSlash cs).length := by
  induction cs with
  | nil => simp at h
  | cons c rest ih =>
    simp only [splitSlash]
    split
    · cases hr : splitSlash rest with
      | nil => exact absurd hr (splitSlash_ne_nil rest)
      | cons hd tl => simp
    · rename_i hc
      have hmem : '/' ∈ rest := by
        rcases List.mem_cons.mp h with h1 | h2
        · exact absurd h1.symm hc
        · exact h2
      cases hr : splitSlash rest with
      | nil => exact absurd hr (splitSlash_ne_nil rest)
      | cons hd tl =>
        have := ih hmem
        rw [hr] at this
        simpa using this

theorem getLastD_ne_nil {α : Type} (l : List α) (hl : l ≠ []) (a b : α) :
    l.getLastD a = l.getLastD b := by
  cases l with
  | nil => exact absurd rfl hl
  | cons x xs => rw [List.getLastD_cons, List.getLastD_cons]

theorem lastSegmentL_append (pre id : List Char) (h : '/' ∉ id) :
    lastSegmentL (pre ++ '/' :: id) = id := by
  induction pre with
  | nil =>
    show lastSegmentL ('/' :: id) = id
    unfold lastSegmentL
    have : splitSlash ('/' :: id) = [] :: splitSlash id := by
      simp [splitSlash]
    rw [this, splitSlash_no_slash id h]
    rfl
  | cons c pre ih =>
    have hmem : '/' ∈ pre ++ '/' :: id := by simp
    have hlen := splitSlash_len2 _ hmem
    rw [List.cons_append]
    unfold lastSegmentL at ih ⊢
    cases hr : splitSlash (pre ++ '/' :: id) with
    | nil => exact absurd hr (splitSlash_ne_nil _)
    | cons hd tl =>
      rw [hr] at ih hlen
      have hsplit : splitSlash (c :: (pre ++ '/' :: id)) =
          if c = '/' then [] :: (hd :: tl) else (c :: hd) :: tl := by
        simp only [splitSlash, hr]
      rw [hsplit]
      by_cases hc : c = '/'
      · rw [if_pos hc, List.getLastD_cons]
        exact ih
      · rw [if_neg hc]
        cases tl with
        | nil => simp at hlen
        | cons t ts =>
          rw [List.getLastD_cons]
          rw [List.getLastD_cons] at ih
          rw [getLastD_ne_nil (t :: ts) (by simp) (c :: hd) hd]
          exact ih

theorem lastSegment_spec (pre id : List Char) (h : '/' ∉ id) :
    lastSegment (String.mk (pre ++ '/' :: id)) = String.mk id := by
  unfold lastSegment
  rw [show (String.mk (pre ++ '/' :: id)).data = pre ++ '/' :: id from rfl]
  rw [lastSegmentL_append pre id h]


theorem mostRecentStream_cons (x : LogStream) (xs : List LogStream) :
    ∃ s, mostRecentStream (x :: xs) = some s := by
  simp only [mostRecentStream]
  cases mostRecentStream xs with
  | none => exact ⟨x, rfl⟩
  | some t =>
    by_cases h : x.lastEventTime < t.lastEventTime
    · exact ⟨t, by simp [h]⟩
    · exact ⟨x, by simp [h]⟩

theorem mostRecentStream_mem (l : List LogStream) :
    ∀ s : LogStream, mostRecentStream l = some s → s ∈ l := by
  induction l with
  | nil => intro s h; simp [mostRecentStream] at h
  | cons x xs ih =>
    intro s h
    simp only [mostRecentStream] at h
    cases hr : mostRecentStream xs with
    | none => rw [hr] at h; simp at h; simp [h]
    | some t =>
      rw [hr] at h
      by_cases hlt : x.lastEventTime < t.lastEventTime
      · simp [hlt] at h
        exact List.mem_cons_of_mem x (ih s (h ▸ hr))
      · simp [hlt] at h
        simp [h]

theorem mostRecentStream_max (l : List LogStream) :
    ∀ s : LogStream, mostRecentStream l = some s →
      ∀ t ∈ l, t.lastEventTime ≤ s.lastEventTime := by
  induction l with
  | nil => intro s h; simp [mostRecentStream] at h
  | cons x xs ih =>
    intro s h t ht
    simp only [mostRecentStream] at h
    cases hr : mostRecentStream xs with
    | none =>
      rw [hr] at h
      simp at h
      subst h
      cases xs with
      | nil =>
        rcases List.mem_cons.mp ht with h1 | h2
        · subst h1; exact le_refl _
        · simp at h2
      | cons y ys =>
        rcases mostRecentStream_cons y ys with ⟨m, hm⟩
        rw [hm] at hr; cases hr
    | some m =>
      rw [hr] at h
      have hxs := ih m hr
      rcases List.mem_cons.mp ht with h1 | h2
      · subst h1
        by_cases hlt : t.lastEventTime < m.lastEventTime
        · simp [hlt] at h; subst h; exact le_of_lt hlt
        · simp [hlt] at h; subst h; exact le_refl _
      · by_cases hlt : x.lastEventTime < m.lastEventTime
        · simp [hlt] at h; subst h; exact hxs t h2
        · simp [hlt] at h; subst h
          exact le_trans (hxs t h2) (not_lt.mp hlt)

theorem find_name_of_nodup (l : List LogStream) (s : LogStream)
    (hnd : (l.map LogStream.name).Nodup) (hmem : s ∈ l) :
    l.find? (fun t => t.name == s.name) = some s := by
  induction l with
  | nil => simp at hmem
  | cons x xs ih =>
    simp only [List.map_cons, List.nodup_cons] at hnd
    rcases List.mem_cons.mp hmem with h1 | h2
    · subst h1
      simp [List.find?]
    · have hne : x.name ≠ s.name := by
        intro he
        exact hnd.1 (he ▸ List.mem_map_of_mem LogStream.name h2)
      have hfalse : (x.name == s.name) = false := by
        simp [hne]
      rw [List.find?_cons_of_neg _ (by simp [hne]), ih hnd.2 h2]


theorem step_mount_ok (cloud : Cloud) (s s' : AppState)
    (h : step cloud s .mount = .ok s') :
    (∃ arns, cloud.clustersResp s.ecsRegion = .ok arns ∧
      s'.clustersList = arns.map lastSegment) ∧
    s'.ecsRegion = s.ecsRegion ∧ s'.logsRegion = s.logsRegion ∧
    s'.title = s.title ∧ s'.servicesList = s.servicesList ∧
    s'.selectedCluster = s.selectedCluster ∧ s'.selectedService = s.selectedService ∧
    s'.redBtnCluster = s.redBtnCluster ∧ s'.redBtnService = s.redBtnService ∧
    s'.logLines = s.logLines := by
  simp only [step] at h
  cases hr : cloud.clustersResp s.ecsRegion with
  | error e => rw [hr] at h; simp [load_clusters] at h
  | ok arns =>
    rw [hr] at h
    simp only [load_clusters] at h
    injection h with h
    subst h
    exact ⟨⟨arns, rfl, rfl⟩, rfl, rfl, rfl, rfl, rfl, rfl, rfl, rfl, rfl⟩

theorem step_selectRegion_ok (cloud : Cloud) (s s' : AppState) (r : String)
    (h : step cloud s (.selectRegion r) = .ok s') :
    s'.ecsRegion = r ∧ s'.logsRegion = r ∧ s'.title = r ∧
    (∃ arns, cloud.clustersResp r = .ok arns ∧
      s'.clustersList = arns.map lastSegment) ∧
    s'.servicesList = s.servicesList ∧
    s'.selectedCluster = s.selectedCluster ∧ s'.selectedService = s.selectedService ∧
    s'.redBtnCluster = s.redBtnCluster ∧ s'.redBtnService = s.redBtnService ∧
    s'.logLines = s.logLines := by
  simp only [step] at h
  cases hr : cloud.clustersResp r with
  | error e => rw [hr] at h; simp [load_clusters] at h
  | ok arns =>
    rw [hr] at h
    simp only [load_clusters] at h
    injection h with h
    subst h
    exact ⟨rfl, rfl, rfl, ⟨arns, rfl, rfl⟩, rfl, rfl, rfl, rfl, rfl, rfl⟩

theorem step_selectCluster_ok (cloud : Cloud) (s s' : AppState) (name : String)
    (h : step cloud s (.selectClusterItem name) = .ok s') :
    s'.selectedCluster = some name ∧ s'.redBtnCluster = name ∧
    s'.servicesList = (load_services (some name) s.servicesList
      (cloud.servicesResp s.ecsRegion)).1 ∧
    s'.ecsRegion = s.ecsRegion ∧ s'.logsRegion = s.logsRegion ∧
    s'.title = s.title ∧ s'.clustersList = s.clustersList ∧
    s'.selectedService = s.selectedService ∧ s'.redBtnService = s.redBtnService ∧
    s'.logLines = s.logLines := by
  simp only [step] at h
  cases hl : load_services (some name) s.servicesList (cloud.servicesResp s.ecsRegion) with
  | mk sv out =>
    rw [hl] at h
    cases out with
    | error e => simp at h
    | ok u =>
      simp only [] at h
      injection h with h
      subst h
      exact ⟨rfl, rfl, rfl, rfl, rfl, rfl, rfl, rfl, rfl, rfl⟩

theorem step_selectService_ok (cloud : Cloud) (s s' : AppState) (name : String)
    (h : step cloud s (.selectServiceItem name) = .ok s') :
    s'.selectedService = some name ∧ s'.redBtnService = name ∧
    s'.logLines = (load_logs s.selectedCluster (some name) s.logLines
      (get_log_group_name
        (cloud.servicesDesc s.ecsRegion (s.selectedCluster.getD "") name)
        (cloud.taskDefs s.ecsRegion))
      (cloud.streamsResp s.logsRegion) (cloud.eventsResp s.logsRegion)).1 ∧
    s'.ecsRegion = s.ecsRegion ∧ s'.logsRegion = s.logsRegion ∧
    s'.title = s.title ∧ s'.clustersList = s.clustersList ∧
    s'.servicesList = s.servicesList ∧
    s'.selectedCluster = s.selectedCluster ∧ s'.redBtnCluster = s.redBtnCluster := by
  simp only [step] at h
  cases hl : load_logs s.selectedCluster (some name) s.logLines
      (get_log_group_name
        (cloud.servicesDesc s.ecsRegion (s.selectedCluster.getD "") name)
        (cloud.taskDefs s.ecsRegion))
      (cloud.streamsResp s.logsRegion) (cloud.eventsResp s.logsRegion) with
  | mk lines out =>
    rw [hl] at h
    cases out with
    | error e => simp at h
    | ok u =>
      simp only [] at h
      injection h with h
      subst h
      exact ⟨rfl, rfl, rfl, rfl, rfl, rfl, rfl, rfl, rfl, rfl⟩

theorem step_redeploy_cases (cloud : Cloud) (s : AppState) :
    (∀ s', step cloud s .clickRedeploy = .ok s' → s' = s ∧
      cloud.updateResp s.ecsRegion ⟨s.redBtnCluster, s.redBtnService, true⟩ = .ok ()) ∧
    (∀ e, cloud.updateResp s.ecsRegion ⟨s.redBtnCluster, s.redBtnService, true⟩ =
        .error e → step cloud s .clickRedeploy = .error e) := by
  constructor
  · intro s' h
    simp only [step] at h
    cases hr : cloud.updateResp s.ecsRegion ⟨s.redBtnCluster, s.redBtnService, true⟩ with
    | error e => rw [hr] at h; simp at h
    | ok u =>
      rw [hr] at h
      injection h with h
      exact ⟨h.symm, rfl⟩
  · intro e hr
    simp only [step, hr]

/-! ### Claim theorems -/

theorem step_regions (cloud : Cloud) (s s' : AppState) (e : Ev)
    (h : step cloud s e = .ok s') :
    (s'.ecsRegion = s.ecsRegion ∧ s'.logsRegion = s.logsRegion) ∨
    (∃ r, e = .selectRegion r ∧ s'.ecsRegion = r ∧ s'.logsRegion = r) := by
  cases e with
  | mount =>
    rcases step_mount_ok cloud s s' h with ⟨_, h1, h2, _⟩
    exact Or.inl ⟨h1, h2⟩
  | selectRegion r =>
    rcases step_selectRegion_ok cloud s s' r h with ⟨h1, h2, _⟩
    exact Or.inr ⟨r, rfl, h1, h2⟩
  | selectClusterItem name =>
    rcases step_selectCluster_ok cloud s s' name h with ⟨_, _, _, h1, h2, _⟩
    exact Or.inl ⟨h1, h2⟩
  | selectServiceItem name =>
    rcases step_selectService_ok cloud s s' name h with ⟨_, _, _, h1, h2, _⟩
    exact Or.inl ⟨h1, h2⟩
  | clickRedeploy =>
    rcases (step_redeploy_cases cloud s).1 s' h with ⟨h1, _⟩
    subst h1
    exact Or.inl ⟨rfl, rfl⟩

/-- Claim C4: for every fully-qualified resource name of the form
`prefix/.../id` (with `id` free of `/`), the derived display identifier is
exactly `id`, and both listing loaders apply exactly this derivation (and
nothing else) to every name the listing call returns. -/
theorem c4_identifier_derivation (pre id : List Char) (h : '/' ∉ id)
    (prev prev2 arns sarns : List String) (c : String) (hc : c ≠ "") :
    lastSegment (String.mk (pre ++ '/' :: id)) = String.mk id ∧
    load_clusters prev (.ok arns) = (arns.map lastSegment, .ok ()) ∧
    load_services (some c) prev2 (fun _ => .ok sarns) =
      (sarns.map lastSegment, .ok ()) := by
  refine ⟨lastSegment_spec pre id h, rfl, ?_⟩
  simp [load_services, hc]

/-- Witness for C4 at `prefix = "p"`, `id = "prod"`. -/
theorem c4_witness :
    lastSegment (String.mk (['p'] ++ '/' :: ['p', 'r', 'o', 'd'])) =
      String.mk ['p', 'r', 'o', 'd'] :=
  (c4_identifier_derivation ['p'] ['p', 'r', 'o', 'd'] (by decide)
    [] [] [] [] "c" (by decide)).1

/-- Claim C8: in every reachable state the two global clients are bound to
the same region, and a completed handler either leaves both bindings
untouched or (only on a `Select.Changed` event) replaces both with the same
new region — they are never replaced independently. -/
theorem c8_region_handles_consistent (cloud : Cloud) :
    (∀ s : AppState, Reaches cloud s → s.ecsRegion = s.logsRegion) ∧
    (∀ (s s' : AppState) (e : Ev), step cloud s e = .ok s' →
      (s'.ecsRegion = s.ecsRegion ∧ s'.logsRegion = s.logsRegion) ∨
      (∃ r, e = .selectRegion r ∧ s'.ecsRegion = r ∧ s'.logsRegion = r)) := by
  constructor
  · intro s hs
    induction hs with
    | init => rfl
    | next hs hstep ih =>
      rcases step_regions _ _ _ _ hstep with ⟨h1, h2⟩ | ⟨r, _, h1, h2⟩
      · rw [h1, h2]; exact ih
      · rw [h1, h2]
  · exact fun s s' e h => step_regions cloud s s' e h

/-- Witness for C8: the state reached by the startup `on_mount` handler
under the concrete cloud has both clients bound to the same region. -/
theorem c8_witness : stMount.ecsRegion = stMount.logsRegion :=
  (c8_region_handles_consistent cloudEx).1 stMount
    (Reaches.next Reaches.init (s := initState) (e := .mount) rfl)

/-- Claim C9: after two region switches R1 then R2 (in issue order), the
cluster list is the identifier-derived listing of R2 alone — any switch to
R2, from any prior state, yields that same list, so R1's response can never
show through.  (In the source every listing call completes synchronously
inside its handler, so the most recently processed switch always determines
the list.) -/
theorem c9_last_region_wins (cloud : Cloud) (s s1 s2 : AppState)
    (r1 r2 : String) (arns : List String)
    (_h1 : step cloud s (.selectRegion r1) = .ok s1)
    (h2 : step cloud s1 (.selectRegion r2) = .ok s2)
    (hr : cloud.clustersResp r2 = .ok arns) :
    s2.clustersList = arns.map lastSegment ∧
    (∀ t t2 : AppState, step cloud t (.selectRegion r2) = .ok t2 →
      t2.clustersList = s2.clustersList) := by
  rcases step_selectRegion_ok cloud s1 s2 r2 h2 with ⟨_, _, _, ⟨arns2, hr2, hl2⟩, _⟩
  rw [hr] at hr2
  injection hr2 with hr2
  subst hr2
  refine ⟨hl2, fun t t2 ht => ?_⟩
  rcases step_selectRegion_ok cloud t t2 r2 ht with ⟨_, _, _, ⟨arns3, hr3, hl3⟩, _⟩
  rw [hr] at hr3
  injection hr3 with hr3
  subst hr3
  rw [hl3, hl2]

/-- Witness for C9: switching `ap-south-1` then `eu-west-1` under the
concrete cloud leaves exactly the derived `eu-west-1` listing. -/
theorem c9_witness : stR2.clustersList = ["p/prod"].map lastSegment :=
  (c9_last_region_wins cloudEx initState stR1 stR2
    "ap-south-1" "eu-west-1" ["p/prod"] rfl rfl rfl).1

/-- Counterexample to claim C1: run mount → select cluster `prod` →
select service `web` (log view now holds three lines) → select cluster
`prod` again.  After the final cluster-selection event the previously
selected service and the log lines are still present — the handler for
`ECSClusterItem` never clears `selected_service` or the `#logs` widget. -/
theorem c1_counterexample :
    runEvents cloudEx [.mount, .selectClusterItem "prod",
      .selectServiceItem "web", .selectClusterItem "prod"] = .ok stService ∧
    stService.selectedService = some "web" ∧
    stService.logLines = ["l1", "l2", "l3"] ∧
    ¬(stService.selectedService = none ∧ stService.logLines = []) := by
  refine ⟨rfl, rfl, rfl, ?_⟩
  intro hcl
  cases hcl.1

/-- Claim C1 as amended: selecting a cluster sets `selectedCluster` and the
redeploy button's cluster and reloads the service list through the current
clients, but it does not clear the previously selected service or empty the
log view — both keep their prior values. -/
theorem c1_cluster_selection_effect (cloud : Cloud) (s s' : AppState)
    (name : String) (h : step cloud s (.selectClusterItem name) = .ok s') :
    s'.selectedCluster = some name ∧ s'.redBtnCluster = name ∧
    s'.servicesList = (load_services (some name) s.servicesList
      (cloud.servicesResp s.ecsRegion)).1 ∧
    s'.selectedService = s.selectedService ∧
    s'.logLines = s.logLines := by
  rcases step_selectCluster_ok cloud s s' name h with
    ⟨h1, h2, h3, _, _, _, _, h4, _, h5⟩
  exact ⟨h1, h2, h3, h4, h5⟩

/-- Witness for the amended C1: selecting `prod` right after startup. -/
theorem c1_witness :
    stCluster.selectedService = initState.selectedService ∧
    stCluster.logLines = initState.logLines :=
  ⟨(c1_cluster_selection_effect cloudEx stMount stCluster "prod" rfl).2.2.2.1,
   (c1_cluster_selection_effect cloudEx stMount stCluster "prod" rfl).2.2.2.2⟩

/-- Counterexample to claim C2: run mount → select cluster → select
service, then switch region to `eu-west-1`.  After the switch the service
list, `selectedCluster`, `selectedService` and the log view all still hold
the previous region's data — `select_changed` rebinds the clients and
reloads only the cluster list. -/
theorem c2_counterexample :
    runEvents cloudEx [.mount, .selectClusterItem "prod",
      .selectServiceItem "web", .selectRegion "eu-west-1"] = .ok stRegionSwitch ∧
    stRegionSwitch.ecsRegion = "eu-west-1" ∧
    stRegionSwitch.selectedCluster = some "prod" ∧
    stRegionSwitch.servicesList = ["web"] ∧
    stRegionSwitch.selectedService = some "web" ∧
    stRegionSwitch.logLines = ["l1", "l2", "l3"] ∧
    ¬(stRegionSwitch.selectedCluster = none ∧ stRegionSwitch.servicesList = [] ∧
      stRegionSwitch.selectedService = none ∧ stRegionSwitch.logLines = []) := by
  refine ⟨rfl, rfl, rfl, rfl, rfl, rfl, ?_⟩
  intro hcl
  cases hcl.1

/-- Claim C2 as amended: a region switch rebinds both clients (and the
title) to the new region and replaces the cluster list with the new
region's derived listing, but it clears none of the other view state:
`selectedCluster`, the service list, `selectedService` and the log view
keep their previous region's values. -/
theorem c2_region_switch_effect (cloud : Cloud) (s s' : AppState)
    (r : String) (h : step cloud s (.selectRegion r) = .ok s') :
    s'.ecsRegion = r ∧ s'.logsRegion = r ∧ s'.title = r ∧
    (∃ arns, cloud.clustersResp r = .ok arns ∧
      s'.clustersList = arns.map lastSegment) ∧
    s'.selectedCluster = s.selectedCluster ∧
    s'.servicesList = s.servicesList ∧
    s'.selectedService = s.selectedService ∧
    s'.logLines = s.logLines := by
  rcases step_selectRegion_ok cloud s s' r h with
    ⟨h1, h2, h3, h4, h5, h6, h7, _, _, h8⟩
  exact ⟨h1, h2, h3, h4, h6, h5, h7, h8⟩

/-- Witness for the amended C2: switching to `eu-west-1` from the state
with a loaded service keeps the stale selections. -/
theorem c2_witness :
    stRegionSwitch.ecsRegion = "eu-west-1" ∧
    stRegionSwitch.selectedService = stService.selectedService :=
  ⟨(c2_region_switch_effect cloudEx stService stRegionSwitch "eu-west-1" rfl).1,
   (c2_region_switch_effect cloudEx stService stRegionSwitch "eu-west-1" rfl).2.2.2.2.2.2.1⟩

theorem findLogGroup_append (pre rest : List ContainerDef)
    (hpre : ∀ c ∈ pre, matchesAwslogs c = false) :
    findLogGroup (pre ++ rest) = findLogGroup rest := by
  induction pre with
  | nil => rfl
  | cons c pre ih =>
    have hc := hpre c (List.mem_cons_self c pre)
    have hpre2 : ∀ x ∈ pre, matchesAwslogs x = false :=
      fun x hx => hpre x (List.mem_cons_of_mem c hx)
    rw [List.cons_append]
    cases hlc : c.logConfiguration with
    | none =>
      simp only [findLogGroup, hlc]
      exact ih hpre2
    | some lc =>
      have hdrv : ¬lc.logDriver = "awslogs" := by
        simp [matchesAwslogs, hlc] at hc
        exact hc
      simp only [findLogGroup, hlc, if_neg hdrv]
      exact ih hpre2

theorem findLogGroup_no_match (cs : List ContainerDef)
    (h : ∀ c ∈ cs, matchesAwslogs c = false) :
    findLogGroup cs = .ok "" := by
  have h2 := findLogGroup_append cs [] h
  rw [List.append_nil] at h2
  rw [h2]
  rfl

theorem findLogGroup_first (pre rest : List ContainerDef) (lc : LogConfig)
    (hpre : ∀ c ∈ pre, matchesAwslogs c = false)
    (hdrv : lc.logDriver = "awslogs") :
    findLogGroup (pre ++ (⟨some lc⟩ : ContainerDef) :: rest) =
      match lc.options with
      | none => .error "KeyError: options"
      | some kvs =>
        match kvs.lookup "awslogs-group" with
        | none => .error "KeyError: awslogs-group"
        | some g => .ok g := by
  rw [findLogGroup_append pre _ hpre]
  simp only [findLogGroup, hdrv, if_true]

/-- Counterexample to claim C3: a task definition whose first container
uses the `awslogs` driver but declares no `awslogs-group` option, followed
by one that declares it.  The claim's selection rule picks the second and
yields `g`; the code raises a `KeyError` on the first instead of skipping
it. -/
theorem c3_counterexample :
    findLogGroup [⟨some ⟨"awslogs", some []⟩⟩,
      ⟨some ⟨"awslogs", some [("awslogs-group", "g")]⟩⟩] =
      .error "KeyError: awslogs-group" ∧
    findLogGroup [⟨some ⟨"awslogs", some []⟩⟩,
      ⟨some ⟨"awslogs", some [("awslogs-group", "g")]⟩⟩] ≠ .ok "g" := by
  refine ⟨rfl, ?_⟩
  intro h
  cases h

/-- Claim C3 as amended: the scan returns the `awslogs-group` option of the
first container definition whose `logConfiguration` has the `awslogs`
driver, ignoring everything after it — provided that container declares the
option (otherwise the lookup raises instead of moving on, see C10); when no
container has the `awslogs` driver the result is `""` (absent, not an
error) and the caller renders the could-not-find message without throwing. -/
theorem c3_first_container_resolution
    (pre rest : List ContainerDef) (lc : LogConfig)
    (kvs : List (String × String)) (g : String)
    (hpre : ∀ c ∈ pre, matchesAwslogs c = false)
    (hdrv : lc.logDriver = "awslogs")
    (hopt : lc.options = some kvs) (hkey : kvs.lookup "awslogs-group" = some g)
    (cs : List ContainerDef) (hnone : ∀ c ∈ cs, matchesAwslogs c = false)
    (selC selS : Option String) (prev : List String)
    (hc : pyTruthy selC = true) (hs : pyTruthy selS = true)
    (streamsRes : String → Except String (List String))
    (eventsRes : String → String → Except String (List String)) :
    findLogGroup (pre ++ (⟨some lc⟩ : ContainerDef) :: rest) = .ok g ∧
    findLogGroup cs = .ok "" ∧
    load_logs selC selS prev (.ok "") streamsRes eventsRes =
      (["Could not find log group for this service."], .ok ()) := by
  refine ⟨?_, findLogGroup_no_match cs hnone, ?_⟩
  · rw [findLogGroup_first pre rest lc hpre hdrv, hopt]
    simp [hkey]
  · simp [load_logs, hc, hs]

/-- Witness for the amended C3: one non-matching container followed by a
matching one with group `/ecs/web`; and the caller's message on `""`. -/
theorem c3_witness :
    findLogGroup [⟨none⟩, ⟨some ⟨"awslogs", some [("awslogs-group", "/ecs/web")]⟩⟩] =
      .ok "/ecs/web" ∧
    load_logs (some "c") (some "w") [] (.ok "") (fun _ => .ok [])
      (fun _ _ => .ok []) =
      (["Could not find log group for this service."], .ok ()) :=
  ⟨(c3_first_container_resolution [⟨none⟩] []
      ⟨"awslogs", some [("awslogs-group", "/ecs/web")]⟩
      [("awslogs-group", "/ecs/web")] "/ecs/web"
      (by intro c hc; simp at hc; simp [hc, matchesAwslogs]) rfl rfl rfl
      [] (by intro c hc; simp at hc) (some "c") (some "w") [] rfl rfl
      (fun _ => .ok []) (fun _ _ => .ok [])).1,
   (c3_first_container_resolution [⟨none⟩] []
      ⟨"awslogs", some [("awslogs-group", "/ecs/web")]⟩
      [("awslogs-group", "/ecs/web")] "/ecs/web"
      (by intro c hc; simp at hc; simp [hc, matchesAwslogs]) rfl rfl rfl
      [] (by intro c hc; simp at hc) (some "c") (some "w") [] rfl rfl
      (fun _ => .ok []) (fun _ _ => .ok [])).2.2⟩

/-- Claim C10: the resolution function is not total.  With an empty
`services` list the `[0]` index raises; on the first `awslogs` container a
missing `options` dict or missing `awslogs-group` key raises a `KeyError`;
only the case where no container matches the driver yields the absent
result `""`. -/
theorem c10_resolution_not_total
    (tdf : String → TaskDef) (svc : ServiceDesc) (l : List ServiceDesc)
    (pre rest : List ContainerDef) (lc lc2 : LogConfig)
    (kvs : List (String × String))
    (hpre : ∀ c ∈ pre, matchesAwslogs c = false)
    (hdrv : lc.logDriver = "awslogs") (hopt : lc.options = none)
    (hdrv2 : lc2.logDriver = "awslogs") (hopt2 : lc2.options = some kvs)
    (hkey : kvs.lookup "awslogs-group" = none)
    (cs : List ContainerDef) (hnone : ∀ c ∈ cs, matchesAwslogs c = false) :
    get_log_group_name [] tdf = .error "IndexError: list index out of range" ∧
    get_log_group_name (svc :: l) tdf =
      findLogGroup (tdf svc.taskDefinition).containerDefinitions ∧
    findLogGroup (pre ++ (⟨some lc⟩ : ContainerDef) :: rest) =
      .error "KeyError: options" ∧
    findLogGroup (pre ++ (⟨some lc2⟩ : ContainerDef) :: rest) =
      .error "KeyError: awslogs-group" ∧
    findLogGroup cs = .ok "" := by
  refine ⟨rfl, rfl, ?_, ?_, findLogGroup_no_match cs hnone⟩
  · rw [findLogGroup_first pre rest lc hpre hdrv, hopt]
  · rw [findLogGroup_first pre rest lc2 hpre hdrv2, hopt2]
    simp [hkey]

/-- Witness for C10 on concrete container lists. -/
theorem c10_witness :
    findLogGroup [⟨some ⟨"awslogs", none⟩⟩] = .error "KeyError: options" ∧
    findLogGroup [⟨some ⟨"awslogs", some [("mode", "non-blocking")]⟩⟩] =
      .error "KeyError: awslogs-group" ∧
    findLogGroup [⟨some ⟨"json-file", some []⟩⟩] = .ok "" :=
  ⟨(c10_resolution_not_total (fun _ => ⟨[]⟩) ⟨"td"⟩ [] [] []
      ⟨"awslogs", none⟩ ⟨"awslogs", some [("mode", "non-blocking")]⟩
      [("mode", "non-blocking")] (by intro c hc; simp at hc) rfl rfl rfl rfl rfl
      [⟨some ⟨"json-file", some []⟩⟩]
      (by intro c hc; simp at hc; simp [hc, matchesAwslogs])).2.2.1,
   (c10_resolution_not_total (fun _ => ⟨[]⟩) ⟨"td"⟩ [] [] []
      ⟨"awslogs", none⟩ ⟨"awslogs", some [("mode", "non-blocking")]⟩
      [("mode", "non-blocking")] (by intro c hc; simp at hc) rfl rfl rfl rfl rfl
      [⟨some ⟨"json-file", some []⟩⟩]
      (by intro c hc; simp at hc; simp [hc, matchesAwslogs])).2.2.2.1,
   (c10_resolution_not_total (fun _ => ⟨[]⟩) ⟨"td"⟩ [] [] []
      ⟨"awslogs", none⟩ ⟨"awslogs", some [("mode", "non-blocking")]⟩
      [("mode", "non-blocking")] (by intro c hc; simp at hc) rfl rfl rfl rfl rfl
      [⟨some ⟨"json-file", some []⟩⟩]
      (by intro c hc; simp at hc; simp [hc, matchesAwslogs])).2.2.2.2⟩

/-- Claim C5: with a resolved non-empty group, `load_logs` renders the
no-streams message when the group has zero streams; otherwise it renders
the last at-most-100 events — a suffix, so still in chronological order —
of the single stream with the greatest last-event time; and a raised
`describe_log_streams` or `get_log_events` call is caught and converted to
a single human-readable line, never propagated (outcome stays `.ok`). -/
theorem c5_log_fetch (selC selS : Option String) (prev : List String)
    (g : String) (hc : pyTruthy selC = true) (hs : pyTruthy selS = true)
    (hg : g ≠ "") (streams : List LogStream) (hne : streams ≠ [])
    (hnd : (streams.map LogStream.name).Nodup) (e nm : String)
    (ev : String → String → Except String (List String)) :
    load_logs selC selS prev (.ok g)
      (fun _ => .ok (describeLogStreamsResp [])) ev =
      (["No log streams found for this service."], .ok ()) ∧
    (∃ s, mostRecentStream streams = some s ∧ s ∈ streams ∧
      (∀ t ∈ streams, t.lastEventTime ≤ s.lastEventTime) ∧
      load_logs selC selS prev (.ok g)
        (fun _ => .ok (describeLogStreamsResp streams))
        (fun _ n => .ok (getLogEventsResp streams n 100)) =
        (s.events.drop (s.events.length - 100), .ok ()) ∧
      (s.events.drop (s.events.length - 100)).length ≤ 100 ∧
      List.IsSuffix (s.events.drop (s.events.length - 100)) s.events) ∧
    load_logs selC selS prev (.ok g) (fun _ => .error e) ev =
      (["Error fetching logs: " ++ e], .ok ()) ∧
    load_logs selC selS prev (.ok g) (fun _ => .ok [nm]) (fun _ _ => .error e) =
      (["Error fetching logs: " ++ e], .ok ()) := by
  refine ⟨?_, ?_, ?_, ?_⟩
  · simp [load_logs, hc, hs, hg, describeLogStreamsResp, mostRecentStream]
  · cases streams with
    | nil => exact absurd rfl hne
    | cons x xs =>
      obtain ⟨s, hms⟩ := mostRecentStream_cons x xs
      have hmem := mostRecentStream_mem (x :: xs) s hms
      have hmax := mostRecentStream_max (x :: xs) s hms
      refine ⟨s, hms, hmem, hmax, ?_, ?_, ?_⟩
      · have hfind := find_name_of_nodup (x :: xs) s hnd hmem
        simp [load_logs, hc, hs, hg, describeLogStreamsResp, hms,
          getLogEventsResp, hfind]
      · rw [List.length_drop]
        omega
      · exact List.drop_suffix _ _
  · simp [load_logs, hc, hs, hg]
  · simp [load_logs, hc, hs, hg]

/-- Witness for C5: the zero-streams case on concrete arguments. -/
theorem c5_witness :
    load_logs (some "prod") (some "web") [] (.ok "/ecs/web")
      (fun _ => .ok (describeLogStreamsResp [])) (fun _ _ => .ok []) =
      (["No log streams found for this service."], .ok ()) :=
  (c5_log_fetch (some "prod") (some "web") [] "/ecs/web" rfl rfl
    (by decide) [⟨"s1", 5, ["l1"]⟩] (by decide) (by decide) "boom" "s1"
    (fun _ _ => .ok [])).1

/-- Counterexample to claim C6: a raised listing call is not recovered —
`load_clusters` and `load_services` have no `try`, so the exception
propagates and the affected list view is not left empty (it keeps its
previous content, since `clear()` runs only after a successful call). -/
theorem c6_counterexample :
    load_clusters ["old"] (.error "boom") = (["old"], .error "boom") ∧
    load_services (some "c") ["oldsvc"] (fun _ => .error "boom") =
      (["oldsvc"], .error "boom") ∧
    ¬((load_clusters ["old"] (.error "boom")).1 = [] ∧
      (load_clusters ["old"] (.error "boom")).2 = .ok ()) := by
  refine ⟨rfl, by simp [load_services], ?_⟩
  intro hcl
  simp [load_clusters] at hcl

/-- Claim C6 as amended: a failing cluster or service listing call
propagates its exception out of the loading routine (terminating the
handler and with it the session) and leaves the affected list view with its
previous contents, not empty; at the event level a region switch whose
listing fails makes the whole handler raise. -/
theorem c6_listing_failure_propagates (prev : List String) (e : String)
    (c : String) (hc : c ≠ "") (cloud : Cloud) (s : AppState) (r : String)
    (hr : cloud.clustersResp r = .error e) :
    load_clusters prev (.error e) = (prev, .error e) ∧
    load_services (some c) prev (fun _ => .error e) = (prev, .error e) ∧
    step cloud s (.selectRegion r) = .error e := by
  refine ⟨rfl, by simp [load_services, hc], ?_⟩
  simp [step, load_clusters, hr]

/-- Witness for the amended C6 on concrete arguments. -/
theorem c6_witness :
    load_clusters ["old"] (.error "AccessDenied") = (["old"], .error "AccessDenied") :=
  (c6_listing_failure_propagates ["old"] "AccessDenied" "c" (by decide)
    { cloudEx with clustersResp := fun _ => .error "AccessDenied" }
    initState "us-west-2" rfl).1

/-- Counterexample to claim C7: a failing `update_service` call is not
reported as a rendered message — `RedeploytBtn.on_click` has no `try`, so
the handler renders nothing and the exception is thrown to the framework
(the event-level step errors out). -/
theorem c7_counterexample :
    redeploy_on_click "api-cluster" "web" (fun _ => .error "AccessDenied") =
      ([⟨"api-cluster", "web", true⟩], [], .error "AccessDenied") ∧
    step cloudFail stService .clickRedeploy = .error "AccessDenied" ∧
    ¬((redeploy_on_click "api-cluster" "web"
        (fun _ => .error "AccessDenied")).2.1 ≠ [] ∧
      (redeploy_on_click "api-cluster" "web"
        (fun _ => .error "AccessDenied")).2.2 ≠ .error "AccessDenied") := by
  refine ⟨rfl, rfl, ?_⟩
  intro hcl
  exact hcl.1 rfl

/-- Claim C7 as amended: a click issues exactly one forced-redeployment
request, built from the button's stored pair and sent to the client bound
at invocation time, with no retry; the handler renders no message, and on
failure the exception propagates instead of being reported. -/
theorem c7_redeploy_single_request (c s : String)
    (f : RedeployCall → Except String Unit) (cloud : Cloud) (st : AppState) :
    (redeploy_on_click c s f).1 = [⟨c, s, true⟩] ∧
    (redeploy_on_click c s f).2.1 = [] ∧
    (redeploy_on_click c s f).2.2 = f ⟨c, s, true⟩ ∧
    (cloud.updateResp st.ecsRegion ⟨st.redBtnCluster, st.redBtnService, true⟩ =
        .ok () → step cloud st .clickRedeploy = .ok st) ∧
    (∀ e, cloud.updateResp st.ecsRegion ⟨st.redBtnCluster, st.redBtnService, true⟩ =
        .error e → step cloud st .clickRedeploy = .error e) := by
  refine ⟨rfl, rfl, rfl, fun h => by simp [step, h], fun e h => by simp [step, h]⟩

/-- Witness for the amended C7: a successful click from the loaded state. -/
theorem c7_witness : step cloudEx stService .clickRedeploy = .ok stService :=
  (c7_redeploy_single_request "api-cluster" "web" (fun _ => .ok ())
    cloudEx stService).2.2.2.1 rfl

end AwsToolbelt
